import Mathlib

/-!
Shallow embedding of the recommendation and evaluation core of
`src/recommenders.py` (classes `BaseRecommender`, `ContentBasedRecommender`,
`ImprovedRecommender`).

Conventions of the embedding:
- feature vectors are lists of rationals (`Vec`); the numeric content of the
  sparse and the dense representation is identical, so a matrix is a list of
  rows regardless of the `sparse` flag, and the flag only decides the
  representation tag and the configuration-conflict warning;
- the tf-idf transform, the dimensionality-reduction transform and the row
  normalizer are sklearn collaborators outside the repository source; they are
  passed as opaque row-matrix or vector functions and the embedding only
  records where the source applies them;
- exceptions raised by the Python code (failing `assert`, sklearn
  `ValueError` on too many requested neighbors, `AttributeError` on the
  missing `metadata` attribute) become `Except.error` values of `RecError`.
-/

/-- A feature vector: one row of the encoded item matrix. -/
abbrev Vec := List ℚ

/-- Dot product of two feature vectors (rows are index-aligned). -/
def dot (x y : Vec) : ℚ := (List.zipWith (· * ·) x y).sum

/-- Squared euclidean norm of a feature vector. -/
def normSq (x : Vec) : ℚ := dot x x

/-- Modelled from the spec: the NeighborIndex (sklearn `NearestNeighbors`
with `metric='cosine'`, fitted in `generate_recommendations`; its
implementation is not part of the repository source) orders items by
ascending cosine distance from the query vector, that is by descending
cosine similarity.  For the nonnegative multi-hot feature rows of this
system, cosine similarity `dot u x / (norm u * norm x)` is ordered exactly
as its square, which is the rational number computed here, so the square
root never has to be taken.  Division by zero (a zero row or a zero query)
follows the rational convention `q / 0 = 0`. -/
def simKey (u x : Vec) : ℚ := (dot u x) ^ 2 / (normSq u * normSq x)

/-- Similarity key of the item stored at row index `i` of the matrix `X`. -/
def nbrKey (X : List Vec) (u : Vec) (i : ℕ) : ℚ := simKey u (X.getD i [])

/-- Modelled from the spec: the neighbor ordering relation of the
NeighborIndex, `item i comes no later than item j`: strictly greater
similarity key (strictly smaller cosine distance), or an equal key with the
tie broken by ascending item index. -/
def nbrLE (X : List Vec) (u : Vec) (i j : ℕ) : Prop :=
  nbrKey X u j < nbrKey X u i ∨ (nbrKey X u i = nbrKey X u j ∧ i ≤ j)

instance (X : List Vec) (u : Vec) : DecidableRel (nbrLE X u) := fun _ _ =>
  inferInstanceAs (Decidable (_ ∨ _))

instance (X : List Vec) (u : Vec) : IsTotal ℕ (nbrLE X u) := by
  constructor
  intro i j
  rcases lt_trichotomy (nbrKey X u i) (nbrKey X u j) with h | h | h
  · exact Or.inr (Or.inl h)
  · rcases Nat.le_total i j with hij | hij
    · exact Or.inl (Or.inr ⟨h, hij⟩)
    · exact Or.inr (Or.inr ⟨h.symm, hij⟩)
  · exact Or.inl (Or.inl h)

instance (X : List Vec) (u : Vec) : IsTrans ℕ (nbrLE X u) := by
  constructor
  intro i j k hij hjk
  rcases hij with hij | ⟨hij, hij2⟩
  · rcases hjk with hjk | ⟨hjk, _⟩
    · exact Or.inl (lt_trans hjk hij)
    · exact Or.inl (hjk ▸ hij)
  · rcases hjk with hjk | ⟨hjk, hjk2⟩
    · exact Or.inl (hij ▸ hjk)
    · exact Or.inr ⟨hij.trans hjk, hij2.trans hjk2⟩

/-- Modelled from the spec: the full neighbor ordering of the fitted index
for a query vector, all row indices of the item matrix sorted nearest
first (descending similarity key, ties by ascending index). -/
def neighborOrder (X : List Vec) (u : Vec) : List ℕ :=
  List.insertionSort (nbrLE X u) (List.range X.length)

/-- Errors raised by the Python code during generation, embedded as values. -/
inductive RecError where
  /-- The failing `assert not owned_items.empty` on a user with an empty
  owned-item list. -/
  | emptyItems : RecError
  /-- The sklearn error raised by `kneighbors` when the requested neighbor
  count exceeds the number of fitted samples. -/
  | neighborCount : RecError
  /-- The `AttributeError` raised by reading `self.metadata`, an attribute no
  constructor in the class hierarchy defines. -/
  | missingMetadata : RecError
deriving DecidableEq, Repr

/-- Modelled from the spec: `nbrs.kneighbors(user_vector, g)` returns the `g`
nearest item indices for the query vector, nearest first; sklearn raises a
`ValueError` when `g` exceeds the number of fitted samples. -/
def kneighbors (X : List Vec) (u : Vec) (g : ℕ) : Except RecError (List ℕ) :=
  if X.length < g then .error .neighborCount
  else .ok ((neighborOrder X u).take g)

/-- The adaptive candidate-retrieval loop of `generate_recommendations`
(`while len(recommendations) < amount`), lines 255-263 and 380-388 of the
source.  Arguments: `n` is the catalog size (number of fitted samples),
`order` the full neighbor ordering for the fixed query vector (each
`kneighbors` call returns its first `g` entries), `excl` the owned-item
list used by the exclusion filter, `genAm` the running requested neighbor
count and `recs` the current filtered candidate list.  The `fuel` argument
only drives structural recursion: the loop strictly increases `genAm` each
iteration, so with the top-level fuel `n + 1` the zero-fuel branch is
unreachable (it would require `genAm > n`, in which case the requested
count check signals the sklearn error first, which is also the value the
dead branch carries). -/
def expandLoop (n : ℕ) (order : List ℕ) (excl : List ℕ) (amount : ℕ) :
    ℕ → ℕ → List ℕ → Except RecError (List ℕ)
  | fuel, genAm, recs =>
    if recs.length < amount then
      let g := genAm + (amount - recs.length)
      if n < g then .error .neighborCount
      else
        match fuel with
        | 0 => .error .neighborCount
        | fuel + 1 =>
            expandLoop n order excl amount fuel g
              ((order.take g).filter (fun a => decide (a ∉ excl)))
    else .ok (recs.take amount)

/-- A user row of the train table: the owned item identifiers
(`row["item_id"]`, also the positional row indices into the item matrix),
the aligned playtime values, and the reviewed item identifiers with their
aligned recommend flags from the review table (empty lists when the user is
absent from that table). -/
structure User where
  itemIds : List ℕ
  playtime : List ℚ := []
  reviewed : List ℕ := []
  reviewFlags : List Bool := []
deriving DecidableEq, Repr

/-- Elementwise sum of two index-aligned rows. -/
def vecAdd (x y : Vec) : Vec := List.zipWith (· + ·) x y

/-- Column-wise mean of a list of rows (`owned_items.mean()`); the empty
selection yields the empty vector (the code never reaches that case past
the emptiness assertion). -/
def matMean (rows : List Vec) : Vec :=
  match rows with
  | [] => []
  | r :: rs => (rs.foldl vecAdd r).map (· / ((rows.length : ℚ)))

/-- The aggregate query vector of a user in plain-mean mode: the column-wise
mean of the owned feature rows, then the row normalizer when `normalize`
is set (the sklearn normalizer is the opaque argument `vecNorm`). -/
def contentUserVec (X : List Vec) (normalize : Bool) (vecNorm : Vec → Vec)
    (u : User) : Vec :=
  let owned := u.itemIds.map (fun i => X.getD i [])
  let v := matMean owned
  if normalize then vecNorm v else v

/-- One iteration of the per-user loop of
`ContentBasedRecommender.generate_recommendations` (lines 240-264): select
the owned rows, assert they are non-empty, build the mean query vector and
run the adaptive retrieval loop against the fitted index. -/
def contentProcessUser (X : List Vec) (normalize : Bool) (vecNorm : Vec → Vec)
    (amount : ℕ) (u : User) : Except RecError (List ℕ) :=
  let owned := u.itemIds.map (fun i => X.getD i [])
  if owned.isEmpty then .error .emptyItems
  else
    let uv := contentUserVec X normalize vecNorm u
    expandLoop X.length (neighborOrder X uv) u.itemIds amount
      (X.length + 1) (amount / 5) []

/-- The sequential per-user loop: one result row per user, and any raised
exception aborts the whole run before the recommendation table is
assigned. -/
def generateAll (f : User → Except RecError (List ℕ)) :
    List User → Except RecError (List (List ℕ))
  | [] => .ok []
  | u :: us =>
    match f u with
    | .error e => .error e
    | .ok r =>
        match generateAll f us with
        | .error e => .error e
        | .ok rs => .ok (r :: rs)

/-- Embedding of `ContentBasedRecommender.generate_recommendations`.  The
argument `X` is the encoded item matrix after the tf-idf and row
normalization transforms of lines 218-228 (sklearn collaborators applied
uniformly before the user loop; they do not interact with the per-user
logic). -/
def contentGenerate (X : List Vec) (normalize : Bool) (vecNorm : Vec → Vec)
    (amount : ℕ) (users : List User) : Except RecError (List (List ℕ)) :=
  generateAll (contentProcessUser X normalize vecNorm amount) users

/-- Representation chosen for the transformed item table (lines 335-340 of
the source): sparse only when the `sparse` flag is set and no
dimensionality reduction is configured. -/
inductive MatRep where
  | sparse : MatRep
  | dense : MatRep
deriving DecidableEq, Repr

deriving instance DecidableEq for Except

/-- Output of `ImprovedRecommender.generate_recommendations`: whether the
configuration-conflict warning was emitted, the representation used for
the item table, and the computation result. -/
structure GenOutput where
  warned : Bool
  rep : MatRep
  result : Except RecError (List (List ℕ))
deriving DecidableEq, Repr

/-- One iteration of the per-user loop of
`ImprovedRecommender.generate_recommendations` (lines 346-389).  After the
emptiness assertion, the feedback branch (lines 354-370) computes the
playtime weights and then reads `self.metadata`, an attribute never
defined anywhere in the class hierarchy, so it raises an `AttributeError`
before any query vector exists (and had the attribute existed, the branch
ends in `assert False` at line 370); the plain branch is the mean query
vector followed by the same retrieval loop, whose filter uses only
`row["item_id"]`. -/
def improvedProcessUser (useFeedback : Bool) (X : List Vec) (normalize : Bool)
    (vecNorm : Vec → Vec) (amount : ℕ) (u : User) : Except RecError (List ℕ) :=
  let inventory := u.itemIds.map (fun i => X.getD i [])
  if inventory.isEmpty then .error .emptyItems
  else if useFeedback then .error .missingMetadata
  else
    let uv := contentUserVec X normalize vecNorm u
    expandLoop X.length (neighborOrder X uv) u.itemIds amount
      (X.length + 1) (amount / 5) []

/-- Embedding of `ImprovedRecommender.generate_recommendations` (lines
306-392).  The matrix pipeline applies the optional tf-idf transform, the
optional dimensionality reduction and the optional row normalization in
the order of lines 323-332; `sparse` never changes any numeric value (csr
versus ndarray hold the same numbers), it only selects the representation
of the item table and, together with a configured reduction, triggers the
RuntimeWarning of line 336. -/
def improvedGenerate (tfidfF dimRedF : Option (List Vec → List Vec))
    (rowNorm : List Vec → List Vec) (vecNorm : Vec → Vec)
    (normalize sparse useFeedback : Bool) (items : List Vec) (amount : ℕ)
    (users : List User) : GenOutput :=
  let X := match tfidfF with | some f => f items | none => items
  let X := match dimRedF with | some f => f X | none => X
  let X := if normalize then rowNorm X else X
  { warned := sparse && dimRedF.isSome
    rep := if sparse && dimRedF.isNone then .sparse else .dense
    result :=
      generateAll (improvedProcessUser useFeedback X normalize vecNorm amount)
        users }

/-!
Helper lemmas about the adaptive retrieval loop.  They are shared by the
claim theorems below.
-/

/-- The loop always stops with one of two outcomes: a candidate list of
length exactly `amount`, or the sklearn neighbor-count error.  It never
returns a shorter list: the only exit with a value requires at least
`amount` accumulated candidates, which the final truncation cuts to
exactly `amount`. -/
theorem expandLoop_dichotomy (n : ℕ) (order excl : List ℕ) (amount : ℕ) :
    ∀ fuel genAm recs,
      (∃ l, expandLoop n order excl amount fuel genAm recs = .ok l ∧
        l.length = amount) ∨
      expandLoop n order excl amount fuel genAm recs = .error .neighborCount := by
  intro fuel
  induction fuel with
  | zero =>
    intro genAm recs
    rw [expandLoop]
    by_cases h : recs.length < amount
    · simp only [if_pos h]
      by_cases hg : n < genAm + (amount - recs.length)
      · simp [hg]
      · simp [hg]
    · simp only [if_neg h]
      exact Or.inl ⟨recs.take amount, rfl, by
        rw [List.length_take]; omega⟩
  | succ f ih =>
    intro genAm recs
    rw [expandLoop]
    by_cases h : recs.length < amount
    · simp only [if_pos h]
      by_cases hg : n < genAm + (amount - recs.length)
      · simp [hg]
      · simp only [if_neg hg]
        exact ih _ _
    · simp only [if_neg h]
      exact Or.inl ⟨recs.take amount, rfl, by
        rw [List.length_take]; omega⟩

/-- Every identifier in a successful loop result either was in the incoming
candidate list or survived the exclusion filter, so with an initially
exclusion-free candidate list the result never contains an excluded
identifier. -/
theorem expandLoop_ok_excluded (n : ℕ) (order excl : List ℕ) (amount : ℕ) :
    ∀ fuel genAm recs l, (∀ a ∈ recs, a ∉ excl) →
      expandLoop n order excl amount fuel genAm recs = .ok l →
      ∀ a ∈ l, a ∉ excl := by
  intro fuel
  induction fuel with
  | zero =>
    intro genAm recs l hrecs hok
    rw [expandLoop] at hok
    by_cases h : recs.length < amount
    · simp only [if_pos h] at hok
      by_cases hg : n < genAm + (amount - recs.length)
      · simp [hg] at hok
      · simp [hg] at hok
    · simp only [if_neg h] at hok
      cases hok
      intro a ha
      exact hrecs a ((List.take_sublist amount recs).subset ha)
  | succ f ih =>
    intro genAm recs l hrecs hok
    rw [expandLoop] at hok
    by_cases h : recs.length < amount
    · simp only [if_pos h] at hok
      by_cases hg : n < genAm + (amount - recs.length)
      · simp [hg] at hok
      · simp only [if_neg hg] at hok
        refine ih _ _ _ ?_ hok
        intro a ha
        have := List.mem_filter.mp ha
        exact of_decide_eq_true this.2
    · simp only [if_neg h] at hok
      cases hok
      intro a ha
      exact hrecs a ((List.take_sublist amount recs).subset ha)

/-- A successful loop result is a sublist of the full neighbor ordering,
provided the incoming candidate list is one; hence it inherits any
pairwise ordering property of the full ordering. -/
theorem expandLoop_ok_sublist (n : ℕ) (order excl : List ℕ) (amount : ℕ) :
    ∀ fuel genAm recs l, recs.Sublist order →
      expandLoop n order excl amount fuel genAm recs = .ok l →
      l.Sublist order := by
  intro fuel
  induction fuel with
  | zero =>
    intro genAm recs l hrecs hok
    rw [expandLoop] at hok
    by_cases h : recs.length < amount
    · simp only [if_pos h] at hok
      by_cases hg : n < genAm + (amount - recs.length)
      · simp [hg] at hok
      · simp [hg] at hok
    · simp only [if_neg h] at hok
      cases hok
      exact (List.take_sublist amount recs).trans hrecs
  | succ f ih =>
    intro genAm recs l hrecs hok
    rw [expandLoop] at hok
    by_cases h : recs.length < amount
    · simp only [if_pos h] at hok
      by_cases hg : n < genAm + (amount - recs.length)
      · simp [hg] at hok
      · simp only [if_neg hg] at hok
        refine ih _ _ _ ?_ hok
        exact ((List.take_sublist _ order).filter _).trans
          (List.filter_sublist order)
    · simp only [if_neg h] at hok
      cases hok
      exact (List.take_sublist amount recs).trans hrecs

/-- When fewer than `amount` identifiers of the full neighbor ordering
survive the exclusion filter, the loop can never accumulate `amount`
candidates: every iteration leaves a too-short list, so the loop keeps
growing the request until the sklearn neighbor-count error. -/
theorem expandLoop_deficit (n : ℕ) (order excl : List ℕ) (amount : ℕ)
    (hnovel : (order.filter fun a => decide (a ∉ excl)).length < amount) :
    ∀ fuel genAm recs, recs.length < amount →
      expandLoop n order excl amount fuel genAm recs =
        .error .neighborCount := by
  intro fuel
  induction fuel with
  | zero =>
    intro genAm recs h
    rw [expandLoop]
    simp only [if_pos h]
    by_cases hg : n < genAm + (amount - recs.length)
    · simp [hg]
    · simp [hg]
  | succ f ih =>
    intro genAm recs h
    rw [expandLoop]
    simp only [if_pos h]
    by_cases hg : n < genAm + (amount - recs.length)
    · simp [hg]
    · simp only [if_neg hg]
      refine ih _ _ ?_
      calc ((order.take _).filter _).length
          ≤ (order.filter fun a => decide (a ∉ excl)).length :=
            ((List.take_sublist _ order).filter _).length_le
        _ < amount := hnovel

/-- A successful sequential run contains one result row per user, each
produced by a successful per-user call, aligned in order. -/
theorem generateAll_ok_forall₂ (f : User → Except RecError (List ℕ)) :
    ∀ users rs, generateAll f users = .ok rs →
      List.Forall₂ (fun u r => f u = .ok r) users rs := by
  intro users
  induction users with
  | nil =>
    intro rs h
    rw [generateAll] at h
    cases h
    exact List.Forall₂.nil
  | cons u us ih =>
    intro rs h
    rw [generateAll] at h
    cases hu : f u with
    | error e => rw [hu] at h; cases h
    | ok r =>
      rw [hu] at h
      cases hus : generateAll f us with
      | error e => rw [hus] at h; cases h
      | ok rs2 =>
        rw [hus] at h
        cases h
        exact List.Forall₂.cons hu (ih _ hus)

/-- A successful sequential run means every user call succeeded. -/
theorem generateAll_ok_mem (f : User → Except RecError (List ℕ)) :
    ∀ (users : List User) (rs : List (List ℕ)),
      generateAll f users = .ok rs → ∀ u ∈ users, ∃ r, f u = .ok r := by
  intro users
  induction users with
  | nil => intro rs h u hu; cases hu
  | cons v us ih =>
    intro rs h u hu
    rw [generateAll] at h
    cases hv : f v with
    | error e => rw [hv] at h; cases h
    | ok r =>
      rw [hv] at h
      cases hus : generateAll f us with
      | error e => rw [hus] at h; cases h
      | ok rs2 =>
        rcases List.mem_cons.mp hu with rfl | hmem
        · exact ⟨r, hv⟩
        · exact ih _ hus u hmem

/-- A successful per-user call of the content recommender returns exactly
`amount` identifiers. -/
theorem contentProcessUser_ok_length (X : List Vec) (normalize : Bool)
    (vecNorm : Vec → Vec) (amount : ℕ) (u : User) (r : List ℕ)
    (h : contentProcessUser X normalize vecNorm amount u = .ok r) :
    r.length = amount := by
  simp only [contentProcessUser] at h
  split at h
  · cases h
  · rcases expandLoop_dichotomy X.length
        (neighborOrder X (contentUserVec X normalize vecNorm u)) u.itemIds
        amount (X.length + 1) (amount / 5) [] with ⟨l, hok, hlen⟩ | herr
    · rw [hok] at h; cases h; exact hlen
    · rw [herr] at h; cases h

/-- Results of a successful sequential run all come from successful user
calls. -/
theorem generateAll_ok_mem_r (f : User → Except RecError (List ℕ)) :
    ∀ (users : List User) (rs : List (List ℕ)),
      generateAll f users = .ok rs → ∀ r ∈ rs, ∃ u ∈ users, f u = .ok r := by
  intro users
  induction users with
  | nil =>
    intro rs h r hr
    rw [generateAll] at h
    cases h
    cases hr
  | cons v us ih =>
    intro rs h r hr
    rw [generateAll] at h
    cases hv : f v with
    | error e => rw [hv] at h; cases h
    | ok r2 =>
      rw [hv] at h
      cases hus : generateAll f us with
      | error e => rw [hus] at h; cases h
      | ok rs2 =>
        rw [hus] at h
        cases h
        rcases List.mem_cons.mp hr with rfl | hmem
        · exact ⟨v, List.mem_cons_self v us, hv⟩
        · obtain ⟨u, hu, huok⟩ := ih _ hus r hmem
          exact ⟨u, List.mem_cons_of_mem v hu, huok⟩

/-- A successful per-user call never recommends an identifier from the
owned-item list, which is the only exclusion filter the source applies. -/
theorem contentProcessUser_ok_excluded (X : List Vec) (normalize : Bool)
    (vecNorm : Vec → Vec) (amount : ℕ) (u : User) (r : List ℕ)
    (h : contentProcessUser X normalize vecNorm amount u = .ok r) :
    ∀ a ∈ r, a ∉ u.itemIds := by
  simp only [contentProcessUser] at h
  split at h
  · cases h
  · exact expandLoop_ok_excluded _ _ _ _ _ _ _ _ (by simp) h

/-- A successful per-user result is a sublist of the full neighbor ordering
for the query vector of that user. -/
theorem contentProcessUser_ok_sublist (X : List Vec) (normalize : Bool)
    (vecNorm : Vec → Vec) (amount : ℕ) (u : User) (r : List ℕ)
    (h : contentProcessUser X normalize vecNorm amount u = .ok r) :
    r.Sublist (neighborOrder X (contentUserVec X normalize vecNorm u)) := by
  simp only [contentProcessUser] at h
  split at h
  · cases h
  · exact expandLoop_ok_sublist _ _ _ _ _ _ _ _ (List.nil_sublist _) h

/-- With feedback weighting disabled, the improved per-user computation is
the content-based one. -/
theorem improvedProcessUser_false_eq (X : List Vec) (normalize : Bool)
    (vecNorm : Vec → Vec) (amount : ℕ) (u : User) :
    improvedProcessUser false X normalize vecNorm amount u =
      contentProcessUser X normalize vecNorm amount u := by
  simp [improvedProcessUser, contentProcessUser]

/-- With feedback weighting enabled, the per-user computation always raises:
the emptiness assertion on an empty inventory, and otherwise the missing
`metadata` attribute. -/
theorem improvedProcessUser_true_error (X : List Vec) (normalize : Bool)
    (vecNorm : Vec → Vec) (amount : ℕ) (u : User) :
    improvedProcessUser true X normalize vecNorm amount u =
      (if u.itemIds.isEmpty then .error .emptyItems
       else .error .missingMetadata) := by
  simp only [improvedProcessUser, if_true]
  rcases u.itemIds with - | ⟨i, is⟩ <;> simp

/-- A successful improved per-user call coincides with the content-based
one (the feedback branch never succeeds). -/
theorem improvedProcessUser_ok (useFeedback : Bool) (X : List Vec)
    (normalize : Bool) (vecNorm : Vec → Vec) (amount : ℕ) (u : User)
    (r : List ℕ)
    (h : improvedProcessUser useFeedback X normalize vecNorm amount u = .ok r) :
    contentProcessUser X normalize vecNorm amount u = .ok r := by
  cases useFeedback
  · rw [improvedProcessUser_false_eq] at h
    exact h
  · rw [improvedProcessUser_true_error] at h
    split at h <;> cases h

/-!
Claim theorems for the retrieval loop and the generators.
-/

/-- C1 (amended): for every catalog size, neighbor ordering, exclusion list
and amount, the adaptive retrieval loop as invoked by
`generate_recommendations` (initial request `amount // 5`, empty candidate
list) always stops with one of exactly two outcomes: a list of exactly
`amount` valid candidates, or the sklearn neighbor-count error once the
requested size outgrows the catalog.  In particular, when fewer than
`amount` identifiers survive the exclusion filter, the call ends in the
error — it does not loop forever, but neither does it return the partial
list of obtainable recommendations that the claim describes. -/
theorem c1_adaptive_loop_stops (n : ℕ) (order excl : List ℕ) (amount : ℕ) :
    ((∃ l, expandLoop n order excl amount (n + 1) (amount / 5) [] = .ok l ∧
        l.length = amount) ∨
      expandLoop n order excl amount (n + 1) (amount / 5) [] =
        .error .neighborCount) ∧
    ((order.filter fun a => decide (a ∉ excl)).length < amount →
      expandLoop n order excl amount (n + 1) (amount / 5) [] =
        .error .neighborCount) := by
  refine ⟨expandLoop_dichotomy n order excl amount _ _ _, fun h => ?_⟩
  exact expandLoop_deficit n order excl amount h _ _ _
    (by simp only [List.length_nil]; omega)

/-- C1 witness: in the deficit scenario of the spec (catalog of five items,
four of them excluded, three requested) the loop reaches the error
outcome. -/
theorem c1_adaptive_loop_stops_witness :
    expandLoop 5 [0, 1, 2, 3, 4] [0, 1, 2, 3] 3 6 (3 / 5) [] =
      .error .neighborCount :=
  (c1_adaptive_loop_stops 5 [0, 1, 2, 3, 4] [0, 1, 2, 3] 3).2 (by decide)

/-- C1 counterexample to the claim as stated: catalog size 5, the user owns
items 0 to 3, amount 3.  The claim says the run terminates and returns the
at most one obtainable recommendation; the code instead aborts with the
sklearn neighbor-count error (the requested size grows past the catalog
with no stop condition). -/
theorem c1_scenario3_counterexample :
    contentGenerate [[1], [1], [1], [1], [1]] false id 3
      [{ itemIds := [0, 1, 2, 3] }] = .error .neighborCount := by
  have horder : neighborOrder [[1], [1], [1], [1], [1]]
      (contentUserVec [[1], [1], [1], [1], [1]] false id
        { itemIds := [0, 1, 2, 3] }) = [0, 1, 2, 3, 4] := by
    norm_num [neighborOrder, contentUserVec, matMean, vecAdd,
      List.insertionSort, List.orderedInsert, nbrLE, nbrKey, simKey, dot,
      normSq, List.range_succ]
  simp only [contentGenerate, generateAll, contentProcessUser, horder]
  decide

/-- C3 (amended): a successful generation run returns exactly `amount`
identifiers for every user; and when some user has fewer than `amount`
non-excluded catalog items, the run never succeeds (it aborts with an
error instead of delivering the shorter obtainable list). -/
theorem c3_exact_amount_or_error (X : List Vec) (normalize : Bool)
    (vecNorm : Vec → Vec) (amount : ℕ) (users : List User) :
    (∀ recss, contentGenerate X normalize vecNorm amount users = .ok recss →
      ∀ r ∈ recss, r.length = amount) ∧
    ((∃ u ∈ users,
        ((List.range X.length).filter fun a => decide (a ∉ u.itemIds)).length
          < amount) →
      ∀ recss,
        contentGenerate X normalize vecNorm amount users ≠ .ok recss) := by
  constructor
  · intro recss h r hr
    obtain ⟨u, -, huok⟩ :=
      generateAll_ok_mem_r (contentProcessUser X normalize vecNorm amount)
        users recss h r hr
    exact contentProcessUser_ok_length X normalize vecNorm amount u r huok
  · rintro ⟨u, hu, hdef⟩ recss hok
    obtain ⟨r, hr⟩ :=
      generateAll_ok_mem (contentProcessUser X normalize vecNorm amount)
        users recss hok u hu
    simp only [contentProcessUser] at hr
    split at hr
    · cases hr
    · have hperm :
          ((neighborOrder X (contentUserVec X normalize vecNorm u)).filter
            fun a => decide (a ∉ u.itemIds)).length =
          ((List.range X.length).filter fun a => decide (a ∉ u.itemIds)).length :=
        ((List.perm_insertionSort _ _).filter _).length_eq
      rw [expandLoop_deficit _ _ _ _ (by omega) _ _ _
        (by simp only [List.length_nil]; omega)] at hr
      cases hr

/-- C3 witness: a successful run (three one-tag items, one owned, one
requested) returns lists of length exactly one, and the deficit run
(catalog of four identical items, three owned, two requested) never
succeeds. -/
theorem c3_exact_amount_or_error_witness :
    (∀ r ∈ [[1]], r.length = 1) ∧
    (∀ recss, contentGenerate [[1], [1], [1], [1]] false id 2
      [{ itemIds := [0, 1, 2] }] ≠ .ok recss) := by
  constructor
  · refine (c3_exact_amount_or_error [[1, 0], [1, 0], [0, 1]] false id 1
      [{ itemIds := [0] }]).1 [[1]] ?_
    have horder : neighborOrder [[1, 0], [1, 0], [0, 1]]
        (contentUserVec [[1, 0], [1, 0], [0, 1]] false id
          { itemIds := [0] }) = [0, 1, 2] := by
      norm_num [neighborOrder, contentUserVec, matMean, vecAdd,
        List.insertionSort, List.orderedInsert, nbrLE, nbrKey, simKey, dot,
        normSq, List.range_succ]
    simp only [contentGenerate, generateAll, contentProcessUser, horder]
    decide
  · refine (c3_exact_amount_or_error [[1], [1], [1], [1]] false id 2
      [{ itemIds := [0, 1, 2] }]).2 ?_
    exact ⟨{ itemIds := [0, 1, 2] }, by simp, by decide⟩

/-- C3 counterexample to the claim as stated: catalog of four items, the
user owns three, amount 2, so the claim demands a list of length
`min 2 (4 - 3) = 1`; the code instead aborts with the neighbor-count
error. -/
theorem c3_deficit_counterexample :
    contentGenerate [[1], [1], [1], [1]] false id 2
      [{ itemIds := [0, 1, 2] }] = .error .neighborCount := by
  have horder : neighborOrder [[1], [1], [1], [1]]
      (contentUserVec [[1], [1], [1], [1]] false id
        { itemIds := [0, 1, 2] }) = [0, 1, 2, 3] := by
    norm_num [neighborOrder, contentUserVec, matMean, vecAdd,
      List.insertionSort, List.orderedInsert, nbrLE, nbrKey, simKey, dot,
      normSq, List.range_succ]
  simp only [contentGenerate, generateAll, contentProcessUser, horder]
  decide

/-- C4 (amended): the exclusion filter of both recommenders uses only the
owned-item list `row["item_id"]`: no successful recommendation list ever
contains an owned item.  Reviewed-but-not-owned items are not excluded
(see the counterexample), so the filter is strictly smaller than the
owned-or-reviewed exclusion set of the claim. -/
theorem c4_owned_never_recommended :
    (∀ (X : List Vec) (normalize : Bool) (vecNorm : Vec → Vec) (amount : ℕ)
      (users : List User) (recss : List (List ℕ)),
      contentGenerate X normalize vecNorm amount users = .ok recss →
      List.Forall₂ (fun (u : User) r => ∀ a ∈ r, a ∉ u.itemIds) users recss) ∧
    (∀ (tfidfF dimRedF : Option (List Vec → List Vec))
      (rowNorm : List Vec → List Vec) (vecNorm : Vec → Vec)
      (normalize sparse useFeedback : Bool) (items : List Vec) (amount : ℕ)
      (users : List User) (recss : List (List ℕ)),
      (improvedGenerate tfidfF dimRedF rowNorm vecNorm normalize sparse
        useFeedback items amount users).result = .ok recss →
      List.Forall₂ (fun (u : User) r => ∀ a ∈ r, a ∉ u.itemIds) users recss) := by
  constructor
  · intro X normalize vecNorm amount users recss h
    refine (generateAll_ok_forall₂ _ users recss h).imp ?_
    intro u r hur
    exact contentProcessUser_ok_excluded X normalize vecNorm amount u r hur
  · intro tfidfF dimRedF rowNorm vecNorm normalize sparse useFeedback items
      amount users recss h
    simp only [improvedGenerate] at h
    refine (generateAll_ok_forall₂ _ users recss h).imp ?_
    intro u r hur
    exact contentProcessUser_ok_excluded _ normalize vecNorm amount u r
      (improvedProcessUser_ok useFeedback _ normalize vecNorm amount u r hur)

/-- C4 witness: a concrete successful run in which the single returned list
contains no owned item of its user. -/
theorem c4_owned_never_recommended_witness :
    List.Forall₂ (fun (u : User) r => ∀ a ∈ r, a ∉ u.itemIds)
      [{ itemIds := [0], reviewed := [1] }] [[1]] := by
  refine (c4_owned_never_recommended).1 [[1, 0], [1, 0], [0, 1]] false id 1
    [{ itemIds := [0], reviewed := [1] }] [[1]] ?_
  have horder : neighborOrder [[1, 0], [1, 0], [0, 1]]
      (contentUserVec [[1, 0], [1, 0], [0, 1]] false id
        { itemIds := [0], reviewed := [1] }) = [0, 1, 2] := by
    norm_num [neighborOrder, contentUserVec, matMean, vecAdd,
      List.insertionSort, List.orderedInsert, nbrLE, nbrKey, simKey, dot,
      normSq, List.range_succ]
  simp only [contentGenerate, generateAll, contentProcessUser, horder]
  decide

/-- C4 counterexample to the claim as stated: the user owns item 0 and has
reviewed item 1; item 1 is the nearest non-owned neighbor and is returned,
although it belongs to the owned-or-reviewed exclusion set the claim
describes.  The filter of the source checks only `row["item_id"]` (the
comment at line 386 notwithstanding). -/
theorem c4_reviewed_item_recommended :
    (improvedGenerate none none id id false false false
      [[1, 0], [1, 0], [0, 1]] 1
      [{ itemIds := [0], reviewed := [1] }]).result = .ok [[1]] ∧
    1 ∈ ({ itemIds := [0], reviewed := [1] } : User).reviewed := by
  constructor
  · have horder : neighborOrder [[1, 0], [1, 0], [0, 1]]
        (contentUserVec [[1, 0], [1, 0], [0, 1]] false id
          { itemIds := [0], reviewed := [1] }) = [0, 1, 2] := by
      norm_num [neighborOrder, contentUserVec, matMean, vecAdd,
        List.insertionSort, List.orderedInsert, nbrLE, nbrKey, simKey, dot,
        normSq, List.range_succ]
    simp [improvedGenerate, generateAll, improvedProcessUser, horder]
    decide
  · decide

/-- C5: every neighbor list returned by a query is pairwise ordered by the
neighbor relation (descending similarity key, which for the nonnegative
feature vectors of this system is ascending cosine distance, with
equal-key ties broken by ascending item index), and consequently every
successful per-user recommendation list is ordered the same way with
respect to the query vector of that user. -/
theorem c5_neighbor_lists_sorted :
    (∀ (X : List Vec) (u : Vec) (g : ℕ) (l : List ℕ),
      kneighbors X u g = .ok l → l.Pairwise (nbrLE X u)) ∧
    (∀ (X : List Vec) (normalize : Bool) (vecNorm : Vec → Vec) (amount : ℕ)
      (u : User) (r : List ℕ),
      contentProcessUser X normalize vecNorm amount u = .ok r →
      r.Pairwise (nbrLE X (contentUserVec X normalize vecNorm u))) := by
  constructor
  · intro X u g l h
    rw [kneighbors] at h
    split at h
    · cases h
    · cases h
      exact (List.sorted_insertionSort (nbrLE X u) (List.range X.length)).sublist
        (List.take_sublist _ _)
  · intro X normalize vecNorm amount u r h
    exact (List.sorted_insertionSort _ _).sublist
      (contentProcessUser_ok_sublist X normalize vecNorm amount u r h)

/-- C5 witness: a concrete query and a concrete per-user run, both with
their ordering property. -/
theorem c5_neighbor_lists_sorted_witness :
    List.Pairwise (nbrLE [[1, 0], [0, 1]] [1, 0]) [0, 1] ∧
    List.Pairwise
      (nbrLE [[1, 0], [1, 0], [0, 1]]
        (contentUserVec [[1, 0], [1, 0], [0, 1]] false id { itemIds := [0] }))
      [1] := by
  constructor
  · refine c5_neighbor_lists_sorted.1 [[1, 0], [0, 1]] [1, 0] 2 [0, 1] ?_
    have horder : neighborOrder [[1, 0], [0, 1]] [1, 0] = [0, 1] := by
      norm_num [neighborOrder, List.insertionSort, List.orderedInsert, nbrLE,
        nbrKey, simKey, dot, normSq, List.range_succ]
    simp [kneighbors, horder]
  · refine c5_neighbor_lists_sorted.2 [[1, 0], [1, 0], [0, 1]] false id 1
      { itemIds := [0] } [1] ?_
    have horder : neighborOrder [[1, 0], [1, 0], [0, 1]]
        (contentUserVec [[1, 0], [1, 0], [0, 1]] false id
          { itemIds := [0] }) = [0, 1, 2] := by
      norm_num [neighborOrder, contentUserVec, matMean, vecAdd,
        List.insertionSort, List.orderedInsert, nbrLE, nbrKey, simKey, dot,
        normSq, List.range_succ]
    simp only [contentProcessUser, horder]
    decide

/-- C7: a user with an empty owned-item list makes the whole generation run
fail (the failing assertion aborts before any recommendation table is
produced), for both recommenders; and for a user with a non-empty
owned-item list the assertion branch is never the outcome. -/
theorem c7_empty_items_fatal (X : List Vec) (normalize : Bool)
    (vecNorm : Vec → Vec) (amount : ℕ) (users : List User) :
    ((∃ u ∈ users, u.itemIds = []) →
      ∀ recss, contentGenerate X normalize vecNorm amount users ≠ .ok recss) ∧
    (∀ u : User, u.itemIds ≠ [] →
      contentProcessUser X normalize vecNorm amount u ≠ .error .emptyItems) ∧
    ((∃ u ∈ users, u.itemIds = []) →
      ∀ (tfidfF dimRedF : Option (List Vec → List Vec))
        (rowNorm : List Vec → List Vec) (sparse useFeedback : Bool)
        (items : List Vec) (recss : List (List ℕ)),
        (improvedGenerate tfidfF dimRedF rowNorm vecNorm normalize sparse
          useFeedback items amount users).result ≠ .ok recss) ∧
    (∀ (useFeedback : Bool) (u : User), u.itemIds ≠ [] →
      improvedProcessUser useFeedback X normalize vecNorm amount u ≠
        .error .emptyItems) := by
  refine ⟨?_, ?_, ?_, ?_⟩
  · rintro ⟨u, hu, hempty⟩ recss hok
    obtain ⟨r, hr⟩ :=
      generateAll_ok_mem _ users recss hok u hu
    simp [contentProcessUser, hempty] at hr
  · intro u hne
    simp only [contentProcessUser]
    split
    · rename_i hemp
      rw [List.isEmpty_iff, List.map_eq_nil_iff] at hemp
      exact absurd hemp hne
    · rcases expandLoop_dichotomy X.length
          (neighborOrder X (contentUserVec X normalize vecNorm u)) u.itemIds
          amount (X.length + 1) (amount / 5) [] with ⟨l, hok, -⟩ | herr
      · rw [hok]; intro h; cases h
      · rw [herr]; intro h; cases h
  · rintro ⟨u, hu, hempty⟩ tfidfF dimRedF rowNorm sparse useFeedback items
      recss hok
    simp only [improvedGenerate] at hok
    obtain ⟨r, hr⟩ := generateAll_ok_mem _ users recss hok u hu
    have := improvedProcessUser_ok useFeedback _ normalize vecNorm amount u r hr
    simp [contentProcessUser, hempty] at this
  · intro useFeedback u hne
    cases useFeedback
    · rw [improvedProcessUser_false_eq]
      intro h
      simp only [contentProcessUser] at h
      split at h
      · rename_i hemp
        rw [List.isEmpty_iff, List.map_eq_nil_iff] at hemp
        exact absurd hemp hne
      · rcases expandLoop_dichotomy X.length
            (neighborOrder X (contentUserVec X normalize vecNorm u)) u.itemIds
            amount (X.length + 1) (amount / 5) [] with ⟨l, hok, -⟩ | herr
        · rw [hok] at h; cases h
        · rw [herr] at h; cases h
    · rw [improvedProcessUser_true_error]
      split
      · rename_i hemp
        rw [List.isEmpty_iff] at hemp
        exact absurd hemp hne
      · intro h; cases h

/-- C7 witness: a run over a user with an empty owned-item list never
succeeds, and a user owning item 0 never triggers the emptiness
assertion. -/
theorem c7_empty_items_fatal_witness :
    (∀ recss, contentGenerate [[1]] false id 1 [{ itemIds := [] }] ≠
      .ok recss) ∧
    contentProcessUser [[1]] false id 1 { itemIds := [0] } ≠
      .error .emptyItems := by
  have h := c7_empty_items_fatal [[1]] false id 1 [{ itemIds := [] }]
  refine ⟨h.1 ⟨{ itemIds := [] }, by simp, rfl⟩, ?_⟩
  exact (c7_empty_items_fatal [[1]] false id 1 []).2.1
    { itemIds := [0] } (by simp)

/-- C8: with the sparse flag and a dimensionality-reduction transform both
configured, the improved recommender emits the RuntimeWarning, silently
falls back to the dense representation, and the computation result (the
whole success or failure outcome, recommendations included) is exactly the
outcome of the corresponding dense configuration, which emits no warning;
the conflict never turns a run into a failure. -/
theorem c8_sparse_dimred_fallback (tfidfF : Option (List Vec → List Vec))
    (dimRed : List Vec → List Vec) (rowNorm : List Vec → List Vec)
    (vecNorm : Vec → Vec) (normalize useFeedback : Bool) (items : List Vec)
    (amount : ℕ) (users : List User) :
    (improvedGenerate tfidfF (some dimRed) rowNorm vecNorm normalize true
      useFeedback items amount users).warned = true ∧
    (improvedGenerate tfidfF (some dimRed) rowNorm vecNorm normalize true
      useFeedback items amount users).rep = MatRep.dense ∧
    (improvedGenerate tfidfF (some dimRed) rowNorm vecNorm normalize true
      useFeedback items amount users).result =
      (improvedGenerate tfidfF (some dimRed) rowNorm vecNorm normalize false
        useFeedback items amount users).result ∧
    (improvedGenerate tfidfF (some dimRed) rowNorm vecNorm normalize false
      useFeedback items amount users).warned = false := by
  refine ⟨rfl, ?_, rfl, rfl⟩
  simp [improvedGenerate]

/-- C10: with feedback weighting enabled (the constructor default), the
improved recommender raises while processing the very first user — the
emptiness assertion on an empty inventory, otherwise the missing
`metadata` attribute — so the run over any non-empty user table fails with
the error of its first user and no recommendation table is ever
produced. -/
theorem c10_feedback_always_raises (tfidfF dimRedF : Option (List Vec → List Vec))
    (rowNorm : List Vec → List Vec) (vecNorm : Vec → Vec)
    (normalize sparse : Bool) (items : List Vec) (amount : ℕ) (u : User)
    (us : List User) :
    ∃ e, (improvedGenerate tfidfF dimRedF rowNorm vecNorm normalize sparse
        true items amount (u :: us)).result = .error e ∧
      (improvedGenerate tfidfF dimRedF rowNorm vecNorm normalize sparse
        true items amount [u]).result = .error e := by
  simp only [improvedGenerate, generateAll]
  rw [improvedProcessUser_true_error]
  by_cases h : u.itemIds.isEmpty
  · exact ⟨.emptyItems, by simp [h], by simp [h]⟩
  · exact ⟨.missingMetadata, by simp [h], by simp [h]⟩

/-- C2: with feedback weighting enabled, a concrete user owning item 0 (no
explicit review used, sentiment fallback expected by the claim) makes the
run abort on the missing `metadata` attribute: the feedback-weighted query
vector is never computed, so the weighted-mean clause of the claim never
holds of any run. -/
theorem c2_feedback_crashes_before_weighting :
    (improvedGenerate none none id id false false true
      [[1, 0], [1, 0], [0, 1]] 1
      [{ itemIds := [0], playtime := [5], reviewed := [1],
         reviewFlags := [true] }]).result = .error .missingMetadata := by
  simp only [improvedGenerate, generateAll, improvedProcessUser_true_error]
  rfl

/-!
Embedding of `BaseRecommender.evaluate` (lines 73-125 of the source): the
state mutation of line 87 (`gt.rename(columns={"item_id": "items"},
inplace=True)` on the stored test or validation table), the inner merge on
the user index, and the five metrics.  The `np.log2` discounts become exact
real numbers via `Real.logb 2`; the other four metrics are rational.
-/

/-- A ground-truth table (test or validation): the current name of its items
column and its rows, keyed by user identifier. -/
structure GtTable where
  itemsColName : String
  rows : List (ℕ × List ℕ)
deriving DecidableEq, Repr

/-- The recommender state touched by `evaluate`: the stored test table, the
stored validation table, and the recommendations table (user identifier
with the ordered recommendation list). -/
structure RecState where
  test : GtTable
  val : GtTable
  recommendations : List (ℕ × List ℕ)
deriving DecidableEq, Repr

/-- The pandas in-place rename of line 87: the `item_id` column becomes
`items` when present, otherwise the table is unchanged. -/
def renameGt (t : GtTable) : GtTable :=
  if t.itemsColName = "item_id" then { t with itemsColName := "items" }
  else t

/-- State effect of `evaluate`: because `gt` is a reference to the stored
table and the rename happens with `inplace=True`, the selected table (the
validation table when `val` is set, otherwise the test table) is renamed
inside the stored state; nothing else in the state changes. -/
def evaluateState (s : RecState) (useVal : Bool) : RecState :=
  if useVal then { s with val := renameGt s.val }
  else { s with test := renameGt s.test }

/-- The inner merge on the user index (line 90): rows of the recommendation
table, in order, paired with the ground-truth items of users present in
both tables; users present in only one table are dropped. -/
def joinRows (recs gt : List (ℕ × List ℕ)) : List (List ℕ × List ℕ) :=
  recs.filterMap fun p => (gt.lookup p.1).map fun items => (p.2, items)

/-- Per-user hit rate (line 103): 1 when some ground-truth item occurs in
the capped recommendation list. -/
def hrAt (recs gt : List ℕ) : ℚ :=
  if gt.any fun a => decide (a ∈ recs) then 1 else 0

/-- The DCG sum of line 107, recursively over the capped recommendation
list, carrying the 0-indexed rank: each hit at rank `i` contributes
`1 / log2 (i + 2)`. -/
noncomputable def dcgFrom (gt : List ℕ) : ℕ → List ℕ → ℝ
  | _, [] => 0
  | i, r :: rs =>
      (if r ∈ gt then (1 : ℝ) else 0) / Real.logb 2 ((i : ℝ) + 2) +
        dcgFrom gt (i + 1) rs

/-- The ideal DCG of line 108: the sum of `1 / log2 (i + 2)` over
`i < m`, where `m = min(len(recommendations), len(items))`. -/
noncomputable def idcg (m : ℕ) : ℝ :=
  ∑ i in Finset.range m, 1 / Real.logb 2 ((i : ℝ) + 2)

/-- Per-user nDCG (lines 107-108): the DCG of the capped list divided by
the ideal DCG of the shorter of the two lists. -/
noncomputable def ndcgAt (recs gt : List ℕ) : ℝ :=
  dcgFrom gt 0 recs / idcg (min recs.length gt.length)

/-- Per-user recall (line 114) after the set conversions of lines 112-113:
the intersection size over the ground-truth set size. -/
def recallAt (recs gt : List ℕ) : ℚ :=
  ((recs.toFinset ∩ gt.toFinset).card : ℚ) / (gt.toFinset.card : ℚ)

/-- Per-user ideal recall (line 118), computed on the deduplicated sets. -/
def idealRecallAt (recs gt : List ℕ) : ℚ :=
  ((min gt.toFinset.card recs.toFinset.card : ℕ) : ℚ) /
    (gt.toFinset.card : ℚ)

/-- Per-user normalized recall (line 122). -/
def nrecallAt (recs gt : List ℕ) : ℚ :=
  recallAt recs gt / idealRecallAt recs gt

/-- Mean of a list of rational per-user values (pandas `.mean()`). -/
def qmean (l : List ℚ) : ℚ := l.sum / l.length

/-- Mean of a list of real per-user values. -/
noncomputable def rmean (l : List ℝ) : ℝ := l.sum / l.length

/-- The evaluation report: the five metric means returned in the results
dictionary. -/
structure EvalReport where
  hr : ℚ
  ndcg : ℝ
  recallMean : ℚ
  idealRecallMean : ℚ
  nrecallMean : ℚ

/-- The metric computation of `evaluate` (lines 99-125): join the
recommendation table with the selected ground-truth table, cap every
recommendation list to its first `k` entries, and report each of the five
metrics as the mean of its per-user values over the joined population. -/
noncomputable def evaluateReport (s : RecState) (k : ℕ) (useVal : Bool) :
    EvalReport :=
  let gt := if useVal then s.val else s.test
  let capped := (joinRows s.recommendations gt.rows).map
    fun p => (p.1.take k, p.2)
  { hr := qmean (capped.map fun p => hrAt p.1 p.2)
    ndcg := rmean (capped.map fun p => ndcgAt p.1 p.2)
    recallMean := qmean (capped.map fun p => recallAt p.1 p.2)
    idealRecallMean := qmean (capped.map fun p => idealRecallAt p.1 p.2)
    nrecallMean := qmean (capped.map fun p => nrecallAt p.1 p.2) }

/-- Embedding of `BaseRecommender.evaluate`: the updated stored state
together with the returned results dictionary. -/
noncomputable def evaluate (s : RecState) (k : ℕ) (useVal : Bool) :
    RecState × EvalReport :=
  (evaluateState s useVal, evaluateReport s k useVal)

/-- The nDCG numerator exactly as the specification words it: the sum over
the 0-indexed rank `i` of `indicator(recommendation i in ground truth) /
log2 (i + 2)`. -/
noncomputable def specDCG (recs gt : List ℕ) : ℝ :=
  ∑ i in Finset.range recs.length,
    (if recs.getD i 0 ∈ gt then (1 : ℝ) else 0) / Real.logb 2 ((i : ℝ) + 2)

/-- The recursive DCG of the embedding agrees with the indexed sum of the
specification, for every starting rank. -/
theorem dcgFrom_eq_sum (gt : List ℕ) :
    ∀ (recs : List ℕ) (i0 : ℕ),
      dcgFrom gt i0 recs =
        ∑ i in Finset.range recs.length,
          (if recs.getD i 0 ∈ gt then (1 : ℝ) else 0) /
            Real.logb 2 ((i0 : ℝ) + (i : ℝ) + 2) := by
  intro recs
  induction recs with
  | nil => intro i0; simp [dcgFrom]
  | cons r rs ih =>
    intro i0
    rw [dcgFrom, List.length_cons, Finset.sum_range_succ']
    rw [ih (i0 + 1)]
    simp only [List.getD_cons_succ, List.getD_cons_zero, Nat.cast_zero,
      Nat.cast_add, Nat.cast_one]
    rw [add_comm]
    congr 1
    · refine Finset.sum_congr rfl fun i hi => ?_
      congr 2
      ring
    · congr 2
      ring

/-- The embedded per-user nDCG is the quotient of the specification sum by
the ideal DCG. -/
theorem ndcgAt_eq_specDCG (recs gt : List ℕ) :
    ndcgAt recs gt = specDCG recs gt / idcg (min recs.length gt.length) := by
  rw [ndcgAt, specDCG, dcgFrom_eq_sum]
  congr 1
  refine Finset.sum_congr rfl fun i hi => ?_
  congr 2
  push_cast
  ring

/-- The single-user state of metric Scenario 2 of the specification: user 7
received recommendations `[10, 20]` (items B and C) and has ground truth
`[10, 30]` (items B and D); the cutoff is 2. -/
def c6State : RecState :=
  { test := { itemsColName := "item_id", rows := [(7, [10, 30])] }
    val := { itemsColName := "item_id", rows := [] }
    recommendations := [(7, [10, 20])] }

/-- Value of the nDCG mean on the Scenario 2 state: the hit (item 10) sits
at 0-indexed rank 0, so the numerator is `1 / log2 2`, not the
`1 / log2 3` the scenario text of the specification states. -/
theorem evaluateReport_c6_ndcg :
    (evaluateReport c6State 2 false).ndcg =
      (1 / Real.logb 2 2) / (1 / Real.logb 2 2 + 1 / Real.logb 2 3) := by
  simp [evaluateReport, c6State, joinRows, rmean, ndcgAt, dcgFrom, idcg,
    Finset.sum_range_succ, List.lookup]
  norm_num

/-- C6 (amended): on Scenario 2 (recommendations `[B, C]`, ground truth
`{B, D}`, cutoff 2) the evaluation reports `HR@2 = 1`, `recall@2 = 1/2`,
`ideal_recall@2 = 1`, `nRecall@2 = 1/2` and `nDCG@2 = (1 / log2 2) /
(1 / log2 2 + 1 / log2 3)` — the claim misplaces the hit at rank 1; it
sits at rank 0, so the numerator is `1 / log2 2 = 1` — each as the mean
over the joined single-user population; and in general the per-user nDCG
is the specification sum (indicator over 0-indexed ranks discounted by
`log2 (i + 2)`) divided by the ideal DCG over the shorter list length. -/
theorem c6_metrics_scenario :
    (evaluateReport c6State 2 false).hr = 1 ∧
    (evaluateReport c6State 2 false).recallMean = 1 / 2 ∧
    (evaluateReport c6State 2 false).idealRecallMean = 1 ∧
    (evaluateReport c6State 2 false).nrecallMean = 1 / 2 ∧
    (evaluateReport c6State 2 false).ndcg =
      (1 / Real.logb 2 2) / (1 / Real.logb 2 2 + 1 / Real.logb 2 3) ∧
    ∀ recs gt : List ℕ,
      ndcgAt recs gt = specDCG recs gt / idcg (min recs.length gt.length) := by
  refine ⟨?_, ?_, ?_, ?_, evaluateReport_c6_ndcg, ndcgAt_eq_specDCG⟩
  · simp [evaluateReport, c6State, joinRows, qmean, hrAt, List.lookup]
  · simp [evaluateReport, c6State, joinRows, qmean, recallAt, List.lookup]
  · simp [evaluateReport, c6State, joinRows, qmean, idealRecallAt,
      List.lookup]
  · simp [evaluateReport, c6State, joinRows, qmean, nrecallAt, recallAt,
      idealRecallAt, List.lookup]

/-- C6 counterexample to the claim as stated: on Scenario 2 the computed
nDCG mean differs from the value `(1 / log2 3) / (1 / log2 2 + 1 / log2 3)`
the claim asserts, because the hit sits at rank 0 and `log2 2 = 1 <
log2 3`. -/
theorem c6_ndcg_scenario_counterexample :
    (evaluateReport c6State 2 false).ndcg ≠
      (1 / Real.logb 2 3) / (1 / Real.logb 2 2 + 1 / Real.logb 2 3) := by
  rw [evaluateReport_c6_ndcg]
  have h2 : Real.logb 2 2 = 1 := Real.logb_self_eq_one (by norm_num)
  have h3 : 1 < Real.logb 2 3 := by
    calc (1 : ℝ) = Real.logb 2 2 := h2.symm
      _ < Real.logb 2 3 :=
        Real.logb_lt_logb (by norm_num) (by norm_num) (by norm_num)
  have hpos : (0 : ℝ) < Real.logb 2 3 := by linarith
  have hBlt : 1 / Real.logb 2 3 < 1 := by
    rw [div_lt_one hpos]; linarith
  have hD : (0 : ℝ) < 1 / Real.logb 2 2 + 1 / Real.logb 2 3 := by
    have hB : (0 : ℝ) < 1 / Real.logb 2 3 := by positivity
    rw [h2]; linarith
  intro heq
  rw [div_eq_div_iff (ne_of_gt hD) (ne_of_gt hD)] at heq
  have heq2 : (1 : ℝ) / Real.logb 2 2 = 1 / Real.logb 2 3 :=
    mul_right_cancel₀ (ne_of_gt hD) heq
  rw [h2] at heq2
  norm_num at heq2
  rw [heq2] at hBlt
  exact absurd hBlt (by norm_num)

/-- A concrete recommender state whose test table still carries the
`item_id` column name. -/
def c9State : RecState :=
  { test := { itemsColName := "item_id", rows := [(0, [1])] }
    val := { itemsColName := "item_id", rows := [(0, [3])] }
    recommendations := [(0, [2])] }

/-- C9 (amended): `evaluate` does not touch the recommendations table and
does not touch the non-selected ground-truth table, but it renames the
selected ground-truth table in place (the pandas rename of line 87 runs
with `inplace=True` on the stored reference): after a call with the
`item_id` column still present, the stored table differs from the one
before the call. -/
theorem c9_evaluate_mutates_gt (s : RecState) (k : ℕ) :
    (evaluate s k false).1.recommendations = s.recommendations ∧
    (evaluate s k true).1.recommendations = s.recommendations ∧
    (evaluate s k false).1.val = s.val ∧
    (evaluate s k true).1.test = s.test ∧
    (evaluate s k false).1.test = renameGt s.test ∧
    (evaluate s k true).1.val = renameGt s.val ∧
    (s.test.itemsColName = "item_id" →
      (evaluate s k false).1.test ≠ s.test) := by
  refine ⟨rfl, rfl, rfl, rfl, rfl, rfl, ?_⟩
  intro h heq
  have hname := congrArg GtTable.itemsColName heq
  simp only [evaluate, evaluateState, renameGt, if_pos h] at hname
  rw [h] at hname
  simp at hname

/-- C9 witness: on the concrete state the recommendations table is
untouched while the stored test table changes. -/
theorem c9_evaluate_mutates_gt_witness :
    (evaluate c9State 10 false).1.recommendations = c9State.recommendations ∧
    (evaluate c9State 10 false).1.test ≠ c9State.test :=
  ⟨(c9_evaluate_mutates_gt c9State 10).1,
   (c9_evaluate_mutates_gt c9State 10).2.2.2.2.2.2 rfl⟩

/-- C9 counterexample to the claim as stated: after the call the stored
test table is not the table from before the call — its items column has
been renamed in place to `items`. -/
theorem c9_stored_table_changed :
    (evaluate c9State 10 false).1.test ≠ c9State.test ∧
    (evaluate c9State 10 false).1.test.itemsColName = "items" := by
  constructor
  · intro heq
    have hname := congrArg GtTable.itemsColName heq
    simp [evaluate, evaluateState, renameGt, c9State] at hname
  · rfl
